import Mathlib

/-!
Shallow embedding of `recommendpy/api/base.py`: the `check_token` decorator,
`BaseAPI.get_path`, and `SearchAPI.search_iterator`, together with theorems
checking the specification's claims against these definitions.
-/

/-- A fragment of Python's value universe, large enough for the arguments
`get_path` receives: `None`, strings, integers, lists and tuples. -/
inductive PyVal where
  | none
  | str (s : String)
  | int (n : Int)
  | list (xs : List PyVal)
  | tuple (xs : List PyVal)

/-- Python truthiness for the embedded values: `None`, `0`, the empty string
and empty containers are falsy, everything else truthy. -/
def pyTruthy : PyVal → Bool
  | .none => false
  | .str s => !(s == "")
  | .int n => !(n == 0)
  | .list xs => !xs.isEmpty
  | .tuple xs => !xs.isEmpty

mutual

/-- Python `repr` on the embedded values (as used by `str` on containers):
strings are quoted, lists are bracketed with `, ` between elements, tuples are
parenthesised with a trailing comma in the one-element case. -/
def pyRepr : PyVal → String
  | .none => "None"
  | .str s => "\x27" ++ s ++ "\x27"
  | .int n => toString n
  | .list xs => "[" ++ pyReprSep xs ++ "]"
  | .tuple xs =>
      if xs.length == 1 then "(" ++ pyReprSep xs ++ ",)"
      else "(" ++ pyReprSep xs ++ ")"

/-- The elements of a container, `repr`-ed and joined with `, `. -/
def pyReprSep : List PyVal → String
  | [] => ""
  | [x] => pyRepr x
  | x :: y :: rest => pyRepr x ++ ", " ++ pyReprSep (y :: rest)

end

/-- Python `str` on the embedded values: a string is itself, anything else is
its `repr`. -/
def pyStr : PyVal → String
  | .str s => s
  | v => pyRepr v

/-- `BaseAPI.get_path` (base.py lines 48-68): start from `[self.endpoint]`,
append `identifier` if truthy, append `method` if truthy, then extend by the
elements of `custom` when it is a truthy `list`, else append a truthy `custom`
as one segment; finally `str` every part and join with `/`. -/
def get_path (endpoint : String) (identifier method custom : PyVal) : String :=
  let url0 := [PyVal.str endpoint]
  let url1 := if pyTruthy identifier then url0 ++ [identifier] else url0
  let url2 := if pyTruthy method then url1 ++ [method] else url1
  let url3 :=
    if pyTruthy custom then
      match custom with
      | PyVal.list xs => url2 ++ xs
      | c => url2 ++ [c]
    else url2
  String.intercalate "/" (url3.map pyStr)

/-- C8: `get_path` produces the documented concrete paths, and every falsy
identifier (`0`, the empty string, `None`) is omitted, exactly as an absent
identifier would be. -/
theorem get_path_examples_and_falsy_identifier :
    get_path "e" PyVal.none PyVal.none PyVal.none = "e" ∧
    get_path "e" (PyVal.str "id") PyVal.none PyVal.none = "e/id" ∧
    get_path "e" (PyVal.str "id") (PyVal.str "m") PyVal.none = "e/id/m" ∧
    get_path "e" PyVal.none PyVal.none (PyVal.list [PyVal.str "a", PyVal.str "b"]) = "e/a/b" ∧
    get_path "e" PyVal.none PyVal.none (PyVal.str "c") = "e/c" ∧
    (∀ (e : String) (m c : PyVal),
      get_path e (PyVal.int 0) m c = get_path e PyVal.none m c) ∧
    (∀ (e : String) (m c : PyVal),
      get_path e (PyVal.str "") m c = get_path e PyVal.none m c) := by
  refine ⟨by decide, by decide, by decide, by decide, by decide, ?_, ?_⟩ <;>
    intro e m c <;> rfl

/-- C4 counterexample: `custom` given as a two-element tuple, a non-list
sequence. The code appends it as one stringified segment, `"e/(1, 2)"`, not as
the two segments `"e/1/2"` the claim requires for every sequence. -/
theorem get_path_tuple_custom_not_extended :
    get_path "e" PyVal.none PyVal.none (PyVal.tuple [PyVal.int 1, PyVal.int 2])
      = "e/(1, 2)" ∧
    get_path "e" PyVal.none PyVal.none (PyVal.tuple [PyVal.int 1, PyVal.int 2])
      ≠ String.intercalate "/" ("e" :: [PyVal.int 1, PyVal.int 2].map pyStr) := by
  refine ⟨by decide, by decide⟩

/-- C4 amended: only a truthy `list` extends the path by its elements; any
other truthy `custom` (tuples and strings included) is appended as a single
stringified segment. -/
theorem get_path_custom_list_extends :
    (∀ (xs : List PyVal), xs ≠ [] →
      get_path "e" PyVal.none PyVal.none (PyVal.list xs)
        = String.intercalate "/" ((PyVal.str "e" :: xs).map pyStr)) ∧
    (∀ (c : PyVal), (∀ ys, c ≠ PyVal.list ys) → pyTruthy c = true →
      get_path "e" PyVal.none PyVal.none c
        = String.intercalate "/" ([PyVal.str "e", c].map pyStr)) := by
  constructor
  · intro xs hxs
    simp [get_path, pyTruthy, List.isEmpty_iff, hxs]
  · intro c hc ht
    cases c with
    | list ys => exact absurd rfl (hc ys)
    | none => simp [pyTruthy] at ht
    | str s =>
        simp [pyTruthy] at ht
        simp [get_path, pyTruthy, ht]
    | int n =>
        simp [pyTruthy] at ht
        simp [get_path, pyTruthy, ht]
    | tuple ys =>
        simp [pyTruthy, List.isEmpty_iff] at ht
        simp [get_path, pyTruthy, List.isEmpty_iff, ht]

/-- C4 witness for the amended claim at concrete inputs. -/
theorem get_path_custom_list_extends_witness :
    get_path "e" PyVal.none PyVal.none (PyVal.list [PyVal.str "a", PyVal.str "b"])
        = String.intercalate "/"
            ((PyVal.str "e" :: [PyVal.str "a", PyVal.str "b"]).map pyStr) ∧
    get_path "e" PyVal.none PyVal.none (PyVal.tuple [PyVal.int 1, PyVal.int 2])
        = String.intercalate "/" ([PyVal.str "e", PyVal.tuple [PyVal.int 1, PyVal.int 2]].map pyStr) := by
  constructor
  · exact get_path_custom_list_extends.1 [PyVal.str "a", PyVal.str "b"] (by simp)
  · exact get_path_custom_list_extends.2 (PyVal.tuple [PyVal.int 1, PyVal.int 2])
      (fun ys h => PyVal.noConfusion h) (by decide)

/-- The expiry state of the auth token object `client.tokens['auth']`. -/
structure Token where
  is_expired : Bool
  need_refresh : Bool
deriving DecidableEq, Repr

/-- Modelled from the spec: the `recommendpy.exceptions` module is not part of
the sources given here, only its two names are imported by `base.py`. Per the
spec, a recognized API error (`RecommendAPIError`) and the authorization error
(`RecommendUnauthorizedError`) are distinct kinds; `NotImplementedError` is a
plain Python error, caught by neither handler. -/
inductive Err where
  | api (msg : String)
  | unauthorized (msg : String)
  | notImplemented
deriving DecidableEq, Repr

/-- Observable events of a guarded call: the transport calls the guard makes,
and the start of the wrapped operation's body. -/
inductive Ev where
  | setAuthToken
  | refreshToken
  | body
deriving DecidableEq, Repr

/-- The transport collaborator of `check_token` (`api._client`): state-passing
versions of its members. A fallible operation returns the successor state and,
when it raises, the error (its side effects having already happened). -/
structure ClientOps (σ : Type) where
  is_auth_token_setted : σ → Bool
  tokens_auth : σ → Token
  set_auth_token : σ → σ × Option Err
  refresh_token : σ → σ × Option Err

/-- Lines 29-30 of base.py: the guard's final check. If no auth token is
installed, raise `RecommendUnauthorizedError('Set auth token')`. -/
def guardFinal {σ : Type} (c : ClientOps σ) (t : List Ev) (s : σ) :
    List Ev × σ × Option Err :=
  if c.is_auth_token_setted s then (t, s, Option.none)
  else (t, s, some (Err.unauthorized "Set auth token"))

/-- Whether an error is caught by `except RecommendAPIError`. -/
def isApiErr : Err → Bool
  | .api _ => true
  | _ => false

/-- Lines 23-30 of base.py: if the token object captured at line 19 reports
`need_refresh`, try `refresh_token` then `set_auth_token`; a recognized API
error from either is logged and swallowed. Then the final check runs. -/
def guardNeedRefresh {σ : Type} (c : ClientOps σ) (t : List Ev) (s : σ)
    (tok : Token) : List Ev × σ × Option Err :=
  if tok.need_refresh then
    match c.refresh_token s with
    | (s2, some e) =>
        if isApiErr e then guardFinal c (t ++ [Ev.refreshToken]) s2
        else (t ++ [Ev.refreshToken], s2, some e)
    | (s2, Option.none) =>
        match c.set_auth_token s2 with
        | (s3, some e) =>
            if isApiErr e then guardFinal c (t ++ [Ev.refreshToken, Ev.setAuthToken]) s3
            else (t ++ [Ev.refreshToken, Ev.setAuthToken], s3, some e)
        | (s3, Option.none) =>
            guardFinal c (t ++ [Ev.refreshToken, Ev.setAuthToken]) s3
  else guardFinal c t s

/-- Lines 19-30 of base.py, from the point where `tokens['auth']` has been
captured: refresh and reinstall unconditionally if the captured token is
expired (errors propagate uncaught), then the `need_refresh` branch and the
final check. -/
def tokenGuardExpiry {σ : Type} (c : ClientOps σ) (t : List Ev) (s1 : σ) :
    List Ev × σ × Option Err :=
  if (c.tokens_auth s1).is_expired then
    match c.refresh_token s1 with
    | (s2, some e) => (t ++ [Ev.refreshToken], s2, some e)
    | (s2, Option.none) =>
        match c.set_auth_token s2 with
        | (s3, some e) => (t ++ [Ev.refreshToken, Ev.setAuthToken], s3, some e)
        | (s3, Option.none) =>
            guardNeedRefresh c (t ++ [Ev.refreshToken, Ev.setAuthToken]) s3
              (c.tokens_auth s1)
  else guardNeedRefresh c t s1 (c.tokens_auth s1)

/-- Lines 16-30 of base.py: the body of the `check_token` wrapper up to (and
including) the final installed-token check, without the wrapped call. Install
a token if none is set (errors propagate), then the expiry, needs-refresh and
final checks. -/
def tokenGuard {σ : Type} (c : ClientOps σ) (s0 : σ) : List Ev × σ × Option Err :=
  if c.is_auth_token_setted s0 then tokenGuardExpiry c [] s0
  else
    match c.set_auth_token s0 with
    | (s1, some e) => ([Ev.setAuthToken], s1, some e)
    | (s1, Option.none) => tokenGuardExpiry c [Ev.setAuthToken] s1

/-- Line 31 of base.py: `check_token` runs the guard and, only when it did not
raise, executes the wrapped function's body from the state the guard left. -/
def checkToken {σ α : Type} (c : ClientOps σ) (bd : σ → σ × Option Err × Option α)
    (s0 : σ) : List Ev × σ × Option Err × Option α :=
  match tokenGuard c s0 with
  | (t, s, some e) => (t, s, some e, Option.none)
  | (t, s, Option.none) =>
      match bd s with
      | (s1, e1, v1) => (t ++ [Ev.body], s1, e1, v1)

/-- The body of `SearchAPI.search` (base.py lines 179-192): it immediately
raises `NotImplementedError`. -/
def searchNotImpl (σ : Type) : σ → σ × Option Err × Option Unit :=
  fun s => (s, some Err.notImplemented, Option.none)

/-- A concrete transport state for exercising the guard: whether a token is
installed, the auth token's expiry state, and call counters. -/
structure TState where
  installed : Bool
  tok : Token
  setCount : Nat
  refreshCount : Nat
deriving DecidableEq, Repr

/-- Concrete client: nothing installed yet; `set_auth_token` installs a fresh,
non-expired token. -/
def cFresh : ClientOps TState where
  is_auth_token_setted s := s.installed
  tokens_auth s := s.tok
  set_auth_token s := ({ s with installed := true, setCount := s.setCount + 1 }, Option.none)
  refresh_token s := ({ s with refreshCount := s.refreshCount + 1 }, Option.none)

/-- Concrete client: `set_auth_token` silently installs nothing, so the
guard's final check finds no token. -/
def cNoInstall : ClientOps TState where
  is_auth_token_setted _ := false
  tokens_auth s := s.tok
  set_auth_token s := ({ s with setCount := s.setCount + 1 }, Option.none)
  refresh_token s := ({ s with refreshCount := s.refreshCount + 1 }, Option.none)

/-- Concrete client: token installed but in the needs-refresh state, and
`refresh_token` fails with a recognized API error. -/
def cNeedRef : ClientOps TState where
  is_auth_token_setted s := s.installed
  tokens_auth s := s.tok
  set_auth_token s := ({ s with installed := true, setCount := s.setCount + 1 }, Option.none)
  refresh_token s := ({ s with refreshCount := s.refreshCount + 1 }, some (Err.api "boom"))

/-- A trivial wrapped body that succeeds, leaving the state unchanged. -/
def bdOk : TState → TState × Option Err × Option Unit :=
  fun s => (s, Option.none, some ())

theorem guardFinal_cases {σ : Type} (c : ClientOps σ) (t : List Ev) (s : σ) :
    (guardFinal c t s = (t, s, Option.none) ∧ c.is_auth_token_setted s = true) ∨
    (guardFinal c t s = (t, s, some (Err.unauthorized "Set auth token")) ∧
      c.is_auth_token_setted s = false) := by
  unfold guardFinal
  by_cases h : c.is_auth_token_setted s = true
  · exact Or.inl ⟨by simp [h], h⟩
  · exact Or.inr ⟨by simp [h], by simpa using h⟩

theorem guardNeedRefresh_shape {σ : Type} (c : ClientOps σ) (t : List Ev) (s : σ)
    (tok : Token) (ht : Ev.body ∉ t) :
    (∃ t2 s2, guardNeedRefresh c t s tok = guardFinal c t2 s2 ∧ Ev.body ∉ t2) ∨
    (∃ t2 s2 e, guardNeedRefresh c t s tok = (t2, s2, some e) ∧ Ev.body ∉ t2) := by
  unfold guardNeedRefresh
  split
  · split
    · rename_i s2 e _
      split
      · exact Or.inl ⟨t ++ [Ev.refreshToken], s2, rfl, by simp [ht]⟩
      · exact Or.inr ⟨t ++ [Ev.refreshToken], s2, e, rfl, by simp [ht]⟩
    · rename_i s2 _
      split
      · rename_i s3 e _
        split
        · exact Or.inl ⟨t ++ [Ev.refreshToken, Ev.setAuthToken], s3, rfl, by simp [ht]⟩
        · exact Or.inr ⟨t ++ [Ev.refreshToken, Ev.setAuthToken], s3, e, rfl, by simp [ht]⟩
      · rename_i s3 _
        exact Or.inl ⟨t ++ [Ev.refreshToken, Ev.setAuthToken], s3, rfl, by simp [ht]⟩
  · exact Or.inl ⟨t, s, rfl, ht⟩

theorem tokenGuardExpiry_shape {σ : Type} (c : ClientOps σ) (t : List Ev) (s1 : σ)
    (ht : Ev.body ∉ t) :
    (∃ t2 s2, tokenGuardExpiry c t s1 = guardFinal c t2 s2 ∧ Ev.body ∉ t2) ∨
    (∃ t2 s2 e, tokenGuardExpiry c t s1 = (t2, s2, some e) ∧ Ev.body ∉ t2) := by
  unfold tokenGuardExpiry
  split
  · split
    · rename_i s2 e _
      exact Or.inr ⟨t ++ [Ev.refreshToken], s2, e, rfl, by simp [ht]⟩
    · rename_i s2 _
      split
      · rename_i s3 e _
        exact Or.inr ⟨t ++ [Ev.refreshToken, Ev.setAuthToken], s3, e, rfl, by simp [ht]⟩
      · rename_i s3 _
        exact guardNeedRefresh_shape c (t ++ [Ev.refreshToken, Ev.setAuthToken]) s3
          (c.tokens_auth s1) (by simp [ht])
  · exact guardNeedRefresh_shape c t s1 (c.tokens_auth s1) ht

theorem tokenGuard_shape {σ : Type} (c : ClientOps σ) (s0 : σ) :
    (∃ t2 s2, tokenGuard c s0 = guardFinal c t2 s2 ∧ Ev.body ∉ t2) ∨
    (∃ t2 s2 e, tokenGuard c s0 = (t2, s2, some e) ∧ Ev.body ∉ t2) := by
  unfold tokenGuard
  split
  · exact tokenGuardExpiry_shape c [] s0 (by simp)
  · split
    · rename_i s1 e _
      exact Or.inr ⟨[Ev.setAuthToken], s1, e, rfl, by simp⟩
    · rename_i s1 _
      exact tokenGuardExpiry_shape c [Ev.setAuthToken] s1 (by simp)

theorem guardFinal_fst {σ : Type} (c : ClientOps σ) (t : List Ev) (s : σ) :
    (guardFinal c t s).1 = t := by
  unfold guardFinal
  split <;> rfl

theorem tokenGuard_no_body {σ : Type} (c : ClientOps σ) (s0 : σ) :
    Ev.body ∉ (tokenGuard c s0).1 := by
  rcases tokenGuard_shape c s0 with ⟨t2, s2, hg, hb⟩ | ⟨t2, s2, e, hg, hb⟩
  · rw [hg, guardFinal_fst]
    exact hb
  · rw [hg]
    exact hb

theorem tokenGuard_ok_installed {σ : Type} (c : ClientOps σ) (s0 : σ)
    (h : (tokenGuard c s0).2.2 = Option.none) :
    c.is_auth_token_setted (tokenGuard c s0).2.1 = true := by
  rcases tokenGuard_shape c s0 with ⟨t2, s2, hg, _⟩ | ⟨t2, s2, e, hg, _⟩
  · rw [hg] at h ⊢
    rcases guardFinal_cases c t2 s2 with ⟨heq, hset⟩ | ⟨heq, _⟩
    · rw [heq]
      exact hset
    · rw [heq] at h
      exact absurd h (by simp)
  · rw [hg] at h
    exact absurd h (by simp)

/-- C5: when the guard's final check finds no auth token installed, the call
raises the authorization error `Set auth token`; the guard succeeds only with
a token installed, and the wrapped body runs only when the guard succeeded. -/
theorem guarded_call_final_token_check :
    ∀ (σ : Type) (c : ClientOps σ) (s0 : σ),
      ((tokenGuard c s0).2.2 = Option.none →
        c.is_auth_token_setted (tokenGuard c s0).2.1 = true) ∧
      (∀ (t : List Ev) (s : σ), c.is_auth_token_setted s = false →
        guardFinal c t s = (t, s, some (Err.unauthorized "Set auth token"))) ∧
      (∀ (α : Type) (bd : σ → σ × Option Err × Option α),
        Ev.body ∈ (checkToken c bd s0).1 → (tokenGuard c s0).2.2 = Option.none) := by
  intro σ c s0
  refine ⟨fun h => tokenGuard_ok_installed c s0 h, ?_, ?_⟩
  · intro t s hs
    unfold guardFinal
    simp [hs]
  · intro α bd hb
    have hnb := tokenGuard_no_body c s0
    rcases hg : tokenGuard c s0 with ⟨t, s, e⟩
    rw [hg] at hnb
    cases e with
    | none => rfl
    | some e =>
        exfalso
        unfold checkToken at hb
        rw [hg] at hb
        simp at hb hnb
        exact hnb hb

/-- C5 witness: with `cNoInstall` the final check fails concretely and raises
`Set auth token`; with `cFresh` the guard succeeds and a token is installed. -/
theorem guarded_call_final_token_check_witness :
    guardFinal cNoInstall [] ⟨false, ⟨false, false⟩, 0, 0⟩
      = ([], ⟨false, ⟨false, false⟩, 0, 0⟩, some (Err.unauthorized "Set auth token")) ∧
    cFresh.is_auth_token_setted (tokenGuard cFresh ⟨false, ⟨false, false⟩, 0, 0⟩).2.1
      = true := by
  constructor
  · exact (guarded_call_final_token_check TState cNoInstall
      ⟨false, ⟨false, false⟩, 0, 0⟩).2.1 [] ⟨false, ⟨false, false⟩, 0, 0⟩ rfl
  · exact (guarded_call_final_token_check TState cFresh
      ⟨false, ⟨false, false⟩, 0, 0⟩).1 (by decide)

/-- C6: with an installed, non-expired token in the needs-refresh state, a
recognized API error from the refresh attempt is swallowed, and the wrapped
body still runs, provided a token is still reported installed. -/
theorem need_refresh_error_suppressed :
    ∀ (σ α : Type) (c : ClientOps σ) (bd : σ → σ × Option Err × Option α)
      (s0 s1 : σ) (m : String),
      c.is_auth_token_setted s0 = true →
      (c.tokens_auth s0).is_expired = false →
      (c.tokens_auth s0).need_refresh = true →
      c.refresh_token s0 = (s1, some (Err.api m)) →
      c.is_auth_token_setted s1 = true →
      checkToken c bd s0 = ([Ev.refreshToken, Ev.body], bd s1) := by
  intro σ α c bd s0 s1 m h1 h2 h3 h4 h5
  unfold checkToken tokenGuard tokenGuardExpiry guardNeedRefresh guardFinal
  rcases hb : bd s1 with ⟨a, b, v⟩
  simp [h1, h2, h3, h4, h5, isApiErr, hb]

/-- C6 witness: the concrete needs-refresh client whose refresh fails still
executes the body, with the failed refresh attempt's side effect recorded. -/
theorem need_refresh_error_suppressed_witness :
    checkToken cNeedRef bdOk ⟨true, ⟨false, true⟩, 0, 0⟩
      = ([Ev.refreshToken, Ev.body], ⟨true, ⟨false, true⟩, 0, 1⟩, Option.none, some ()) := by
  exact need_refresh_error_suppressed TState Unit cNeedRef bdOk
    ⟨true, ⟨false, true⟩, 0, 0⟩ ⟨true, ⟨false, true⟩, 0, 1⟩ "boom" rfl rfl rfl rfl rfl

/-- C7: a fresh client with no token set performs exactly one `set_auth_token`
and then the body; a client with an expired token performs `refresh_token`
then `set_auth_token`, in that order, before the body runs. -/
theorem guard_install_and_expired_refresh :
    ∀ (σ α : Type) (c : ClientOps σ) (bd : σ → σ × Option Err × Option α) (s0 : σ),
      (∀ s1, c.is_auth_token_setted s0 = false →
        c.set_auth_token s0 = (s1, Option.none) →
        (c.tokens_auth s1).is_expired = false →
        (c.tokens_auth s1).need_refresh = false →
        c.is_auth_token_setted s1 = true →
        checkToken c bd s0 = ([Ev.setAuthToken, Ev.body], bd s1)) ∧
      (∀ s1 s2, c.is_auth_token_setted s0 = true →
        (c.tokens_auth s0).is_expired = true →
        (c.tokens_auth s0).need_refresh = false →
        c.refresh_token s0 = (s1, Option.none) →
        c.set_auth_token s1 = (s2, Option.none) →
        c.is_auth_token_setted s2 = true →
        checkToken c bd s0 = ([Ev.refreshToken, Ev.setAuthToken, Ev.body], bd s2)) := by
  intro σ α c bd s0
  constructor
  · intro s1 h1 h2 h3 h4 h5
    unfold checkToken tokenGuard tokenGuardExpiry guardNeedRefresh guardFinal
    rcases hb : bd s1 with ⟨a, b, v⟩
    simp [h1, h2, h3, h4, h5, hb]
  · intro s1 s2 h1 h2 h3 h4 h5 h6
    unfold checkToken tokenGuard tokenGuardExpiry guardNeedRefresh guardFinal
    rcases hb : bd s2 with ⟨a, b, v⟩
    simp [h1, h2, h3, h4, h5, h6, hb]

/-- C7 witness: the fresh-install client performs exactly one install before
the body; the expired-token client refreshes then reinstalls before the body. -/
theorem guard_install_and_expired_refresh_witness :
    checkToken cFresh bdOk ⟨false, ⟨false, false⟩, 0, 0⟩
      = ([Ev.setAuthToken, Ev.body], ⟨true, ⟨false, false⟩, 1, 0⟩, Option.none, some ()) ∧
    checkToken cFresh bdOk ⟨true, ⟨true, false⟩, 0, 0⟩
      = ([Ev.refreshToken, Ev.setAuthToken, Ev.body], ⟨true, ⟨true, false⟩, 1, 1⟩,
          Option.none, some ()) := by
  constructor
  · exact (guard_install_and_expired_refresh TState Unit cFresh bdOk
      ⟨false, ⟨false, false⟩, 0, 0⟩).1 ⟨true, ⟨false, false⟩, 1, 0⟩ rfl rfl rfl rfl rfl
  · exact (guard_install_and_expired_refresh TState Unit cFresh bdOk
      ⟨true, ⟨true, false⟩, 0, 0⟩).2 ⟨true, ⟨true, false⟩, 0, 1⟩
      ⟨true, ⟨true, false⟩, 1, 1⟩ rfl rfl rfl rfl rfl rfl

/-- C10: `SearchAPI.search` is the guard wrapped around a body that only
raises `NotImplementedError`: the call never returns a value, the token-store
effects of the guard happen in full, `NotImplementedError` surfaces exactly
when the guard succeeded, a guard error surfaces unchanged with the body
never reached; the fresh client concretely mutates its token store (one
install) even though the operation is unimplemented. -/
theorem search_guard_runs_before_not_implemented :
    (∀ (σ : Type) (c : ClientOps σ) (s0 : σ),
      ((checkToken c (searchNotImpl σ) s0).2.2.2 = Option.none) ∧
      ((checkToken c (searchNotImpl σ) s0).2.1 = (tokenGuard c s0).2.1) ∧
      ((tokenGuard c s0).2.2 = Option.none →
        checkToken c (searchNotImpl σ) s0
          = ((tokenGuard c s0).1 ++ [Ev.body], (tokenGuard c s0).2.1,
              some Err.notImplemented, Option.none)) ∧
      (∀ e, (tokenGuard c s0).2.2 = some e →
        checkToken c (searchNotImpl σ) s0
          = ((tokenGuard c s0).1, (tokenGuard c s0).2.1, some e, Option.none) ∧
        Ev.body ∉ (checkToken c (searchNotImpl σ) s0).1)) ∧
    checkToken cFresh (searchNotImpl TState) ⟨false, ⟨false, false⟩, 0, 0⟩
      = ([Ev.setAuthToken, Ev.body], ⟨true, ⟨false, false⟩, 1, 0⟩,
          some Err.notImplemented, Option.none) := by
  constructor
  · intro σ c s0
    have hnb := tokenGuard_no_body c s0
    rcases hg : tokenGuard c s0 with ⟨t, s, e⟩
    rw [hg] at hnb
    unfold checkToken
    rw [hg]
    cases e with
    | none =>
        refine ⟨by simp [searchNotImpl], by simp [searchNotImpl], ?_, ?_⟩
        · intro _
          simp [searchNotImpl]
        · intro e' he'
          simp at he'
    | some e =>
        refine ⟨by simp, by simp, ?_, ?_⟩
        · intro h
          simp at h
        · intro e' he'
          simp at he' hnb
          subst he'
          exact ⟨by simp, by simpa using hnb⟩
  · decide

/-- C10 witness: the general part applied to the concrete fresh client, whose
guard succeeds, so `NotImplementedError` is raised after one token install. -/
theorem search_guard_runs_before_not_implemented_witness :
    checkToken cFresh (searchNotImpl TState) ⟨false, ⟨false, false⟩, 0, 0⟩
      = ((tokenGuard cFresh ⟨false, ⟨false, false⟩, 0, 0⟩).1 ++ [Ev.body],
          (tokenGuard cFresh ⟨false, ⟨false, false⟩, 0, 0⟩).2.1,
          some Err.notImplemented, Option.none) := by
  exact (search_guard_runs_before_not_implemented.1 TState cFresh
    ⟨false, ⟨false, false⟩, 0, 0⟩).2.2.1 (by decide)

/-- The loop state of `search_iterator` (base.py lines 211-213): the current
`skip`, the consecutive-failure counter `failed_count`, and the page size
`limit` sent with the next call. -/
structure IterState where
  skip : Int
  failed : Nat
  limit : Int
deriving DecidableEq, Repr

/-- What one `self.search(skip=..., limit=...)` call does, as seen by the
iterator: raise a recognized API error, return a non-dict value, or return a
dict with optional `data`, `limit` and `total` entries (absent entries are the
`get` defaults). Items are modelled as naturals. -/
inductive SearchResp where
  | raise
  | nonDict
  | page (data : Option (List Nat)) (lim : Option Int) (tot : Option Int)
deriving DecidableEq, Repr

/-- How one loop iteration ends: continue with a new state, `break` out of the
loop, or re-raise the error. -/
inductive StepRes where
  | cont (st : IterState)
  | brk
  | reraise
deriving DecidableEq, Repr

/-- How a whole run ends: the loop `break`s (normal exhaustion), the error is
re-raised, or the supplied responses ran out with the loop still going (the
generator would issue another `search` call). -/
inductive RunResult where
  | finished
  | raised
  | pending (st : IterState)
deriving DecidableEq, Repr

/-- One iteration of the `while True` loop (base.py lines 214-231), given the
response of the `search` call it makes. On a successful call `failed_count`
is reset to 0 first; a non-dict result then raises the synthetic
`RecommendAPIError('Empty result.')`, caught by the same handler as a failing
call, leaving `failed_count` at 1. On a dict result the `data` items are
yielded, `limit` is updated from the response (default 0), the loop breaks
when `total` (default 0) is strictly below the updated limit, else `skip`
advances by the updated limit. The handler re-raises once `failed_count`
exceeds `max_failed`. -/
def searchStep (mf : Nat) (st : IterState) (r : SearchResp) : List Nat × StepRes :=
  match r with
  | .raise =>
      ([], if st.failed + 1 > mf then .reraise
        else .cont ⟨st.skip, st.failed + 1, st.limit⟩)
  | .nonDict =>
      ([], if 0 + 1 > mf then .reraise else .cont ⟨st.skip, 1, st.limit⟩)
  | .page data lim tot =>
      (data.getD [],
        if tot.getD 0 < lim.getD 0 then .brk
        else .cont ⟨st.skip + lim.getD 0, 0, lim.getD 0⟩)

/-- Run `search_iterator`'s loop against a finite list of responses, one per
`search` call. Returns the `(skip, limit)` arguments of the calls made, the
yielded items in order, and how the run ended. -/
def runIter (mf : Nat) : List SearchResp → IterState → List (Int × Int) × List Nat × RunResult
  | [], st => ([], [], .pending st)
  | r :: rs, st =>
      match searchStep mf st r with
      | (items, .cont st1) =>
          match runIter mf rs st1 with
          | (cs, is2, res) => ((st.skip, st.limit) :: cs, items ++ is2, res)
      | (items, .brk) => ([(st.skip, st.limit)], items, .finished)
      | (items, .reraise) => ([(st.skip, st.limit)], items, .raised)

/-- The initial loop state (base.py lines 211-213): `skip = start_skip`,
`failed_count = 0`, `limit = 3000`. -/
def initState (start_skip : Int) : IterState := ⟨start_skip, 0, 3000⟩

theorem runIter_cons_cont {mf : Nat} {st st1 : IterState} {r : SearchResp}
    {items : List Nat} (rs : List SearchResp)
    (h : searchStep mf st r = (items, StepRes.cont st1)) :
    runIter mf (r :: rs) st
      = ((st.skip, st.limit) :: (runIter mf rs st1).1,
          items ++ (runIter mf rs st1).2.1, (runIter mf rs st1).2.2) := by
  simp only [runIter]
  rw [h]

theorem runIter_cons_brk {mf : Nat} {st : IterState} {r : SearchResp}
    {items : List Nat} (rs : List SearchResp)
    (h : searchStep mf st r = (items, StepRes.brk)) :
    runIter mf (r :: rs) st = ([(st.skip, st.limit)], items, RunResult.finished) := by
  simp only [runIter]
  rw [h]

theorem runIter_cons_reraise {mf : Nat} {st : IterState} {r : SearchResp}
    {items : List Nat} (rs : List SearchResp)
    (h : searchStep mf st r = (items, StepRes.reraise)) :
    runIter mf (r :: rs) st = ([(st.skip, st.limit)], items, RunResult.raised) := by
  simp only [runIter]
  rw [h]

theorem runIter_status_append (mf : Nat) :
    ∀ (xs : List SearchResp) (st st1 : IterState) (cs : List (Int × Int))
      (is2 : List Nat) (ys : List SearchResp),
      runIter mf xs st = (cs, is2, RunResult.pending st1) →
      (runIter mf (xs ++ ys) st).2.2 = (runIter mf ys st1).2.2 := by
  intro xs
  induction xs with
  | nil =>
      intro st st1 cs is2 ys h
      have h3 : RunResult.pending st = RunResult.pending st1 :=
        congrArg (fun p => p.2.2) h
      have h4 : st = st1 := by injection h3
      subst h4
      simp
  | cons r rs ih =>
      intro st st1 cs is2 ys h
      rcases hs : searchStep mf st r with ⟨items, sr⟩
      cases sr with
      | cont st2 =>
          rw [runIter_cons_cont rs hs] at h
          have hres : (runIter mf rs st2).2.2 = RunResult.pending st1 :=
            congrArg (fun p => p.2.2) h
          rw [List.cons_append, runIter_cons_cont (rs ++ ys) hs]
          show (runIter mf (rs ++ ys) st2).2.2 = (runIter mf ys st1).2.2
          refine ih st2 st1 (runIter mf rs st2).1 (runIter mf rs st2).2.1 ys ?_
          rw [← hres]
      | brk =>
          rw [runIter_cons_brk rs hs] at h
          exact absurd (congrArg (fun p => p.2.2) h) (by simp)
      | reraise =>
          rw [runIter_cons_reraise rs hs] at h
          exact absurd (congrArg (fun p => p.2.2) h) (by simp)

theorem raise_replicate_le (mf : Nat) :
    ∀ (k : Nat) (st : IterState), st.failed + k ≤ mf →
      runIter mf (List.replicate k SearchResp.raise) st
        = (List.replicate k (st.skip, st.limit), [],
            RunResult.pending ⟨st.skip, st.failed + k, st.limit⟩) := by
  intro k
  induction k with
  | zero => intro st _; simp [runIter]
  | succ k ih =>
      intro st h
      have hle : ¬ st.failed + 1 > mf := by omega
      have hstep : searchStep mf st SearchResp.raise
          = ([], StepRes.cont ⟨st.skip, st.failed + 1, st.limit⟩) := by
        simp only [searchStep]
        rw [if_neg hle]
      have ih2 := ih ⟨st.skip, st.failed + 1, st.limit⟩ (by show st.failed + 1 + k ≤ mf; omega)
      rw [List.replicate_succ, runIter_cons_cont (List.replicate k SearchResp.raise) hstep, ih2]
      simp [List.replicate_succ]
      omega

theorem raise_replicate_over (mf : Nat) :
    ∀ (k : Nat) (st : IterState), st.failed + k = mf + 1 → 1 ≤ k →
      (runIter mf (List.replicate k SearchResp.raise) st).2.2 = RunResult.raised := by
  intro k
  induction k with
  | zero => intro st _ h1; omega
  | succ k ih =>
      intro st h h1
      by_cases hk : k = 0
      · subst hk
        have hgt : st.failed + 1 > mf := by omega
        have hstep : searchStep mf st SearchResp.raise = ([], StepRes.reraise) := by
          simp only [searchStep]
          rw [if_pos hgt]
        rw [List.replicate_succ, runIter_cons_reraise (List.replicate 0 SearchResp.raise) hstep]
      · have hle : ¬ st.failed + 1 > mf := by omega
        have hstep : searchStep mf st SearchResp.raise
            = ([], StepRes.cont ⟨st.skip, st.failed + 1, st.limit⟩) := by
          simp only [searchStep]
          rw [if_neg hle]
        have ih2 := ih ⟨st.skip, st.failed + 1, st.limit⟩
          (by show st.failed + 1 + k = mf + 1; omega) (by omega)
        rw [List.replicate_succ, runIter_cons_cont (List.replicate k SearchResp.raise) hstep]
        exact ih2

theorem nonDict_replicate (mf : Nat) (hmf : 1 ≤ mf) :
    ∀ (n : Nat) (st : IterState),
      runIter mf (List.replicate (n + 1) SearchResp.nonDict) st
        = ((st.skip, st.limit) :: List.replicate n (st.skip, st.limit), [],
            RunResult.pending ⟨st.skip, 1, st.limit⟩) := by
  intro n
  induction n with
  | zero =>
      intro st
      have hle : ¬ 0 + 1 > mf := by omega
      have hstep : searchStep mf st SearchResp.nonDict
          = ([], StepRes.cont ⟨st.skip, 1, st.limit⟩) := by
        simp only [searchStep]
        rw [if_neg hle]
      rw [List.replicate_succ, runIter_cons_cont (List.replicate 0 SearchResp.nonDict) hstep]
      simp [runIter]
  | succ n ih =>
      intro st
      have hle : ¬ 0 + 1 > mf := by omega
      have hstep : searchStep mf st SearchResp.nonDict
          = ([], StepRes.cont ⟨st.skip, 1, st.limit⟩) := by
        simp only [searchStep]
        rw [if_neg hle]
      have ih2 := ih ⟨st.skip, 1, st.limit⟩
      rw [List.replicate_succ,
        runIter_cons_cont (List.replicate (n + 1) SearchResp.nonDict) hstep, ih2]
      simp [List.replicate_succ]

theorem zero_limit_page_steady (mf : Nat) (d : Option (List Nat)) (lim tot : Option Int)
    (hl : lim.getD 0 = 0) (ht : tot.getD 0 = 0) :
    ∀ (n : Nat) (sk : Int),
      runIter mf (List.replicate n (SearchResp.page d lim tot)) ⟨sk, 0, 0⟩
        = (List.replicate n (sk, 0), (List.replicate n (d.getD [])).flatten,
            RunResult.pending ⟨sk, 0, 0⟩) := by
  intro n
  induction n with
  | zero => intro sk; simp [runIter]
  | succ n ih =>
      intro sk
      have hc : ¬ tot.getD 0 < lim.getD 0 := by rw [hl, ht]; omega
      have hstep : searchStep mf ⟨sk, 0, 0⟩ (SearchResp.page d lim tot)
          = (d.getD [], StepRes.cont ⟨sk, 0, 0⟩) := by
        simp only [searchStep]
        rw [if_neg hc, hl]
        norm_num
      rw [List.replicate_succ,
        runIter_cons_cont (List.replicate n (SearchResp.page d lim tot)) hstep, ih sk]
      simp [List.replicate_succ]

/-- C1 counterexample: with `max_failed = 1`, the claim predicts that
`max_failed + 1 = 2` consecutive non-mapping responses re-raise; but the loop
is left pending (about to call `search` again with the same arguments), and no
number of consecutive non-mapping responses accumulates beyond one failure,
because the successful `search` call resets `failed_count` to 0 before the
synthetic error is counted. -/
theorem non_mapping_twice_not_reraised :
    (runIter 1 [SearchResp.nonDict, SearchResp.nonDict] (initState 0)).2.2
      ≠ RunResult.raised ∧
    runIter 1 [SearchResp.nonDict, SearchResp.nonDict] (initState 0)
      = ([(0, 3000), (0, 3000)], [], RunResult.pending ⟨0, 1, 3000⟩) := by
  refine ⟨by decide, by decide⟩

/-- C1 amended: a recognized error from the `search` call itself increments
the failure counter and re-raises as soon as the counter exceeds `max_failed`;
but a call returning a non-mapping result first resets the counter to 0 and
only then counts the synthetic `Empty result.` error, so any run of
consecutive non-mapping responses keeps the counter at 1 and loops forever
when `max_failed ≥ 1`; the synthetic error re-raises only when
`max_failed = 0`. -/
theorem non_mapping_failure_counting :
    ∀ (mf n : Nat) (st : IterState),
      (1 ≤ mf →
        runIter mf (List.replicate (n + 1) SearchResp.nonDict) st
          = ((st.skip, st.limit) :: List.replicate n (st.skip, st.limit), [],
              RunResult.pending ⟨st.skip, 1, st.limit⟩)) ∧
      (∀ rs, (runIter 0 (SearchResp.nonDict :: rs) st).2.2 = RunResult.raised) ∧
      (searchStep mf st SearchResp.raise
        = ([], if st.failed + 1 > mf then StepRes.reraise
            else StepRes.cont ⟨st.skip, st.failed + 1, st.limit⟩)) := by
  intro mf n st
  refine ⟨fun hmf => nonDict_replicate mf hmf n st, ?_, rfl⟩
  intro rs
  have hstep : searchStep 0 st SearchResp.nonDict = ([], StepRes.reraise) := by
    simp only [searchStep]
    rw [if_pos (by omega)]
  rw [runIter_cons_reraise rs hstep]

/-- C1 witness for the amended claim: two consecutive non-mapping responses at
`max_failed = 1` leave the run pending with one recorded failure, and a single
non-mapping response at `max_failed = 0` re-raises. -/
theorem non_mapping_failure_counting_witness :
    runIter 1 (List.replicate 2 SearchResp.nonDict) (initState 0)
      = ([(0, 3000), (0, 3000)], [], RunResult.pending ⟨0, 1, 3000⟩) ∧
    (runIter 0 [SearchResp.nonDict] (initState 0)).2.2 = RunResult.raised := by
  constructor
  · have h := (non_mapping_failure_counting 1 1 (initState 0)).1 (by decide)
    simpa using h
  · exact (non_mapping_failure_counting 0 0 (initState 0)).2.1 []

/-- C2: a page response terminates the iteration exactly when its `total`
(default 0) is strictly below the just-updated `limit` (default 0); otherwise
the loop continues with `skip` advanced by the updated limit and the failure
counter cleared. Concretely, `total=1000, limit=1000` does not terminate (the
next call is made at `skip=1000` with the updated limit), while
`total=500, limit=1000` does. -/
theorem search_iterator_termination_boundary :
    (∀ (mf : Nat) (st : IterState) (data : Option (List Nat)) (lim tot : Option Int),
      runIter mf [SearchResp.page data lim tot] st
        = ([(st.skip, st.limit)], data.getD [],
            if tot.getD 0 < lim.getD 0 then RunResult.finished
            else RunResult.pending ⟨st.skip + lim.getD 0, 0, lim.getD 0⟩)) ∧
    runIter 5 [SearchResp.page (some [1, 2]) (some 1000) (some 1000),
               SearchResp.page (some [3]) (some 1000) (some 500)] (initState 0)
      = ([(0, 3000), (1000, 1000)], [1, 2, 3], RunResult.finished) := by
  constructor
  · intro mf st data lim tot
    by_cases hc : tot.getD 0 < lim.getD 0
    · have hstep : searchStep mf st (SearchResp.page data lim tot)
          = (data.getD [], StepRes.brk) := by
        simp only [searchStep]
        rw [if_pos hc]
      rw [runIter_cons_brk [] hstep, if_pos hc]
    · have hstep : searchStep mf st (SearchResp.page data lim tot)
          = (data.getD [], StepRes.cont ⟨st.skip + lim.getD 0, 0, lim.getD 0⟩) := by
        simp only [searchStep]
        rw [if_neg hc]
      rw [runIter_cons_cont [] hstep, if_neg hc]
      simp [runIter]
  · decide

/-- C3: the failure counter counts only consecutive failures. With any
`max_failed ≥ 1`: `max_failed - 1` failures, then a full page (`total = limit`,
so the loop continues and the counter resets to 0), then `max_failed` further
failures never re-raise — the run stays pending; from a clean counter,
`max_failed` consecutive failures stay pending and exactly `max_failed + 1`
consecutive failures re-raise; and every successful page resets the counter
to 0 in the continuing state. -/
theorem failure_counter_consecutive_only :
    ∀ (mf : Nat), 1 ≤ mf → ∀ (start : Int),
      ((runIter mf (List.replicate (mf - 1) SearchResp.raise
          ++ (SearchResp.page (some []) (some 5) (some 5)
              :: List.replicate mf SearchResp.raise)) (initState start)).2.2
        = RunResult.pending ⟨start + 5, mf, 5⟩) ∧
      (∀ st : IterState, st.failed = 0 →
        (runIter mf (List.replicate mf SearchResp.raise) st).2.2
          = RunResult.pending ⟨st.skip, mf, st.limit⟩) ∧
      (∀ st : IterState, st.failed = 0 →
        (runIter mf (List.replicate (mf + 1) SearchResp.raise) st).2.2
          = RunResult.raised) ∧
      (∀ (st : IterState) (data : Option (List Nat)) (lim tot : Option Int),
        (searchStep mf st (SearchResp.page data lim tot)).2
          = if tot.getD 0 < lim.getD 0 then StepRes.brk
            else StepRes.cont ⟨st.skip + lim.getD 0, 0, lim.getD 0⟩) := by
  intro mf hmf start
  have hfront := raise_replicate_le mf (mf - 1) (initState start) (by simp [initState])
  refine ⟨?_, ?_, ?_, fun st data lim tot => rfl⟩
  · rw [runIter_status_append mf (List.replicate (mf - 1) SearchResp.raise)
      (initState start) ⟨start, 0 + (mf - 1), 3000⟩ _ _ _ hfront]
    have hc : ¬ (some (5 : Int)).getD 0 < (some (5 : Int)).getD 0 := by simp
    have hstep : searchStep mf ⟨start, 0 + (mf - 1), 3000⟩
        (SearchResp.page (some []) (some 5) (some 5))
        = ([], StepRes.cont ⟨start + 5, 0, 5⟩) := by
      simp only [searchStep]
      rw [if_neg hc]
      rfl
    rw [runIter_cons_cont (List.replicate mf SearchResp.raise) hstep]
    show (runIter mf (List.replicate mf SearchResp.raise) ⟨start + 5, 0, 5⟩).2.2
      = RunResult.pending ⟨start + 5, mf, 5⟩
    rw [raise_replicate_le mf mf ⟨start + 5, 0, 5⟩ (by simp)]
    simp
  · intro st h0
    rw [raise_replicate_le mf mf st (by omega)]
    simp [h0]
  · intro st h0
    exact raise_replicate_over mf (mf + 1) st (by omega) (by omega)

/-- C3 witness: the scenario at `max_failed = 2`, `start_skip = 0`: one
failure, a full page, two more failures — pending, never raised; while three
consecutive failures from a clean counter re-raise. -/
theorem failure_counter_consecutive_only_witness :
    (runIter 2 (List.replicate 1 SearchResp.raise
        ++ (SearchResp.page (some []) (some 5) (some 5)
            :: List.replicate 2 SearchResp.raise)) (initState 0)).2.2
      = RunResult.pending ⟨5, 2, 5⟩ ∧
    (runIter 2 (List.replicate 3 SearchResp.raise) (initState 0)).2.2
      = RunResult.raised := by
  have h := failure_counter_consecutive_only 2 (by decide) 0
  refine ⟨by simpa using h.1, h.2.2.1 (initState 0) rfl⟩

/-- C9: when every `search` call returns a dict whose `limit` and `total` are
both absent (or both 0), the iterator never terminates and never raises:
however many responses are supplied, the run stays pending; after the first
call (made with the initial `limit = 3000`) the updated limit is 0, the
termination test `0 < 0` fails, `skip` never advances, and the identical call
`(start_skip, 0)` is repeated while each page's items are yielded. -/
theorem zero_limit_never_terminates :
    ∀ (mf n : Nat) (start : Int) (d : Option (List Nat)) (lim tot : Option Int),
      lim.getD 0 = 0 → tot.getD 0 = 0 →
      runIter mf (List.replicate (n + 1) (SearchResp.page d lim tot)) (initState start)
        = ((start, 3000) :: List.replicate n (start, 0),
            (List.replicate (n + 1) (d.getD [])).flatten,
            RunResult.pending ⟨start, 0, 0⟩) := by
  intro mf n start d lim tot hl ht
  have hc : ¬ tot.getD 0 < lim.getD 0 := by rw [hl, ht]; omega
  have hstep : searchStep mf (initState start) (SearchResp.page d lim tot)
      = (d.getD [], StepRes.cont ⟨start, 0, 0⟩) := by
    simp only [searchStep]
    rw [if_neg hc, hl]
    norm_num [initState]
  rw [List.replicate_succ,
    runIter_cons_cont (List.replicate n (SearchResp.page d lim tot)) hstep,
    zero_limit_page_steady mf d lim tot hl ht n start]
  simp [initState, List.replicate_succ]

/-- C9 witness: two pages with absent `limit` and `total = 0` from
`start_skip = 4`, each carrying one item: both calls happen (the second with
`limit` 0 and unchanged `skip`), both items are yielded, and the run is still
pending. -/
theorem zero_limit_never_terminates_witness :
    runIter 5 (List.replicate 2 (SearchResp.page (some [7]) Option.none (some 0)))
        (initState 4)
      = ([(4, 3000), (4, 0)], [7, 7], RunResult.pending ⟨4, 0, 0⟩) := by
  have h := zero_limit_never_terminates 5 1 4 (some [7]) Option.none (some 0) rfl rfl
  simpa using h
